import Mathlib

/-
Verification of the screenshot-analysis core of TronDashboard
(src/TronDashboard/analyze_screenshot.py).

The numeric computations of the source (numpy float arrays) are embedded
over ℚ: images are lists of rows, a pixel is its list of channel values,
and every statistic (band percentage, percentile, variance, contrast)
is the exact rational counterpart of the float computation in the code.
The only real-valued definition is the standard deviation, whose square
root is irrational in general; the classification that the code derives
from it is embedded by comparing the (exact) variance against the squared
thresholds, and the equivalence with the code comparison on the
square root is proved as part of the reflection theorems.
-/

namespace TronDashboard

/-- Pixels are rows of channel values; the loader contract is 3 channels
(R, G, B), but the analysis functions are embedded over any channel
count, mirroring numpy indexing into the channel axis. -/
abbrev Pixel := List ℚ

/-- Image as rows of pixels (height x width x channels). -/
abbrev PixelBuffer := List (List Pixel)

/-- Luminance map as rows of brightness values (height x width). -/
abbrev LuminanceMap := List (List ℚ)

/-- Translates benefit of `brightness` (line 29-31): perceived brightness,
ITU BT.709 weights over channels 0, 1, 2. -/
def lum (p : Pixel) : ℚ :=
  0.2126 * p.getD 0 0 + 0.7152 * p.getD 1 0 + 0.0722 * p.getD 2 0

/-- Translates `brightness` applied to the whole buffer: elementwise
luminance, same spatial shape. -/
def brightness (img : PixelBuffer) : LuminanceMap :=
  img.map (fun row => row.map lum)

/-- Guarded luminance transform: numpy raises an IndexError when the
channel axis has fewer than 3 entries (`pixels[..., 2]` at line 31);
that unhandled exception is modelled as `none`. Buffers with three or
more channels go through unchanged (numpy ignores extra channels). -/
def brightnessChecked (img : PixelBuffer) : Option LuminanceMap :=
  if img.all (fun row => row.all (fun p => decide (3 ≤ p.length)))
  then some (brightness img) else none

/-- Band predicate of line 36: true black, `brt < 0.02`. -/
def bandBlack (x : ℚ) : Bool := decide (x < 0.02)

/-- Band predicate of line 37: very dark, `0.02 <= brt < 0.06`. -/
def bandVdark (x : ℚ) : Bool := decide (0.02 ≤ x) && decide (x < 0.06)

/-- Band predicate of line 38: dark, `0.06 <= brt < 0.15`. -/
def bandDark (x : ℚ) : Bool := decide (0.06 ≤ x) && decide (x < 0.15)

/-- Band predicate of line 39: mid, `0.15 <= brt < 0.40`. -/
def bandMid (x : ℚ) : Bool := decide (0.15 ≤ x) && decide (x < 0.40)

/-- Band predicate of line 40: bright, `0.40 <= brt < 0.70`. -/
def bandBright (x : ℚ) : Bool := decide (0.40 ≤ x) && decide (x < 0.70)

/-- Band predicate of line 41: hot, `brt >= 0.70`. -/
def bandHot (x : ℚ) : Bool := decide (0.70 ≤ x)

/-- The six band percentages of `analyze_brightness_distribution`
(lines 33-49). The scalar statistics of lines 50-54 (mean, median,
percentiles, max of the whole map) are consumed by no verified claim and
are omitted. -/
structure DistributionReport where
  black : ℚ
  vdark : ℚ
  dark : ℚ
  mid : ℚ
  bright : ℚ
  hot : ℚ
deriving DecidableEq

/-- Translates the band-percentage part of
`analyze_brightness_distribution` (lines 33-49): each percentage is the
count of pixels in the band over the total pixel count, times 100. -/
def analyze_brightness_distribution (brt : LuminanceMap) : DistributionReport :=
  let xs := brt.flatten
  let total : ℚ := (xs.length : ℚ)
  { black := (xs.countP bandBlack : ℚ) / total * 100
    vdark := (xs.countP bandVdark : ℚ) / total * 100
    dark := (xs.countP bandDark : ℚ) / total * 100
    mid := (xs.countP bandMid : ℚ) / total * 100
    bright := (xs.countP bandBright : ℚ) / total * 100
    hot := (xs.countP bandHot : ℚ) / total * 100 }

/-- Translates `count_peaks` (lines 102-107): boolean above-threshold
sequence, then the number of rising edges, one per consecutive pair
going from not-above to above (`np.diff(above.astype(int)) == 1`). -/
def count_peaks (arr : List ℚ) (threshold : ℚ) : ℕ :=
  let above := arr.map (fun x => decide (threshold < x))
  (above.zip above.tail).countP (fun p => !p.1 && p.2)

/-- Insertion of one element into an ascending list, used to embed the
sort inside `np.percentile`. -/
def insertSorted (x : ℚ) : List ℚ → List ℚ
  | [] => [x]
  | y :: ys => if x ≤ y then x :: y :: ys else y :: insertSorted x ys

/-- Ascending sort (insertion sort) standing for the sort performed by
`np.percentile`. -/
def sortAsc (xs : List ℚ) : List ℚ := xs.foldr insertSorted []

/-- Translates `np.percentile(xs, q)` with the default linear
interpolation: on the ascending sort `s` of length `n`, the virtual
index is `q / 100 * (n - 1)`; the result interpolates between the
entries at its floor and the next position. On an empty list numpy
raises; here the value is junk (0) and every use is guarded by a
nonemptiness hypothesis in the theorems. -/
def percentile (xs : List ℚ) (q : ℚ) : ℚ :=
  let s := sortAsc xs
  let n := s.length
  let pos : ℚ := q / 100 * ((n : ℚ) - 1)
  let i : ℕ := ⌊pos⌋₊
  let lo := s.getD i 0
  let hi := s.getD (i + 1) lo
  lo + (pos - (i : ℚ)) * (hi - lo)

/-- Record for one scan line of `analyze_grid_lines` (lines 76-81):
the dictionary keys floor_brightness, line_brightness, contrast_ratio
(field `contrast`, after the local variable of line 74) and peak_count. -/
structure ScanResult where
  floor_brightness : ℚ
  line_brightness : ℚ
  contrast : ℚ
  peak_count : ℕ
deriving DecidableEq

/-- Translates lines 70-73 and 87-90: the 20th percentile of the scan
sequence, clamped from below to 0.001 before it is used as the divisor
of the contrast computation. -/
def floor_divisor (seq : List ℚ) : ℚ :=
  if percentile seq 20 < 0.001 then 0.001 else percentile seq 20

/-- Translates the body of both scan loops of `analyze_grid_lines`
(lines 67-98): percentile floor and line levels, clamped divisor,
contrast, and peak count at threshold `floor + (line - floor) * 0.3`. -/
def scanline (seq : List ℚ) : ScanResult :=
  let line_level := percentile seq 90
  let floor_level := floor_divisor seq
  { floor_brightness := floor_level * 100
    line_brightness := line_level * 100
    contrast := line_level / floor_level
    peak_count := count_peaks seq (floor_level + (line_level - floor_level) * 0.3) }

/-- Translates `int(frac * dim)` (lines 68 and 85): the fractions are
nonnegative, so Python truncation is the floor. -/
def scanIndex (f : ℚ) (d : ℕ) : ℕ := ⌊f * (d : ℚ)⌋₊

/-- Height fractions of the five horizontal scan lines (line 67). -/
def hFracs : List ℚ := [0.40, 0.45, 0.50, 0.55, 0.60]

/-- Width fractions of the three vertical scan lines (line 84). -/
def vFracs : List ℚ := [0.40, 0.50, 0.60]

/-- Row extraction `brt[y, :]` (line 69). -/
def extractRow (brt : LuminanceMap) (y : ℕ) : List ℚ := brt.getD y []

/-- Column extraction `brt[:, x]` (line 86). -/
def extractCol (brt : LuminanceMap) (x : ℕ) : List ℚ :=
  brt.map (fun row => row.getD x 0)

/-- Translates `analyze_grid_lines` (lines 57-100): five horizontal and
three vertical scan lines, in source order. The shape `h, w` is taken
from the map as in line 63. -/
def analyze_grid_lines (brt : LuminanceMap) : List ScanResult :=
  let h := brt.length
  let w := (brt.headD []).length
  hFracs.map (fun f => scanline (extractRow brt (scanIndex f h)))
    ++ vFracs.map (fun f => scanline (extractCol brt (scanIndex f w)))

/-- The five color-category percentages of `analyze_color_channels`
(lines 109-139). -/
structure ColorReport where
  cyan : ℚ
  warm : ℚ
  purple : ℚ
  green : ℚ
  white : ℚ
deriving DecidableEq

/-- Cyan predicate of line 114: `(g > 0.1) & (b > 0.1) & (r < g * 0.3)`. -/
def is_cyan (p : Pixel) : Bool :=
  decide (0.1 < p.getD 1 0) && decide (0.1 < p.getD 2 0)
    && decide (p.getD 0 0 < p.getD 1 0 * 0.3)

/-- Warm predicate of line 118: `(r > 0.1) & (r > g * 1.5) & (r > b * 1.5)`. -/
def is_warm (p : Pixel) : Bool :=
  decide (0.1 < p.getD 0 0) && decide (p.getD 1 0 * 1.5 < p.getD 0 0)
    && decide (p.getD 2 0 * 1.5 < p.getD 0 0)

/-- Purple predicate of line 122: `(r > 0.1) & (b > 0.1) & (g < r * 0.5)`. -/
def is_purple (p : Pixel) : Bool :=
  decide (0.1 < p.getD 0 0) && decide (0.1 < p.getD 2 0)
    && decide (p.getD 1 0 < p.getD 0 0 * 0.5)

/-- Green predicate of line 126: `(g > 0.1) & (g > r * 2) & (g > b * 1.5)`. -/
def is_green (p : Pixel) : Bool :=
  decide (0.1 < p.getD 1 0) && decide (p.getD 0 0 * 2 < p.getD 1 0)
    && decide (p.getD 2 0 * 1.5 < p.getD 1 0)

/-- White predicate of line 130: `(r > 0.5) & (g > 0.5) & (b > 0.5)`. -/
def is_white (p : Pixel) : Bool :=
  decide (0.5 < p.getD 0 0) && decide (0.5 < p.getD 1 0)
    && decide (0.5 < p.getD 2 0)

/-- Translates `analyze_color_channels` (lines 109-139): per-category
matching-pixel count over total pixel count, times 100. -/
def analyze_color_channels (img : PixelBuffer) : ColorReport :=
  let px := img.flatten
  let total : ℚ := (px.length : ℚ)
  { cyan := (px.countP is_cyan : ℚ) / total * 100
    warm := (px.countP is_warm : ℚ) / total * 100
    purple := (px.countP is_purple : ℚ) / total * 100
    green := (px.countP is_green : ℚ) / total * 100
    white := (px.countP is_white : ℚ) / total * 100 }

/-- The three-way classification of line 191, source strings
"YES" / "WEAK" / "NO". -/
inductive VariationClass where
  | YES
  | WEAK
  | NO
deriving DecidableEq

/-- Arithmetic mean of a list (`np.mean`); junk (0) on the empty list,
where numpy yields nan. -/
def listMean (xs : List ℚ) : ℚ := xs.sum / (xs.length : ℚ)

/-- Population variance of a list, the square of `np.std` (ddof = 0,
divide by N); junk (0) on the empty list, where numpy yields nan. -/
def popVar (xs : List ℚ) : ℚ :=
  (xs.map (fun x => (x - listMean xs) ^ 2)).sum / (xs.length : ℚ)

/-- Maximum of a list (`np.max`); junk (0) on the empty list, where
numpy raises. -/
def listMax : List ℚ → ℚ
  | [] => 0
  | [x] => x
  | x :: y :: ys => max x (listMax (y :: ys))

/-- Rectangular sub-slice `brt[r0:r1, c0:c1]` flattened to the list of
its values, row by row. -/
def subSlice (brt : LuminanceMap) (r0 r1 c0 c1 : ℕ) : List ℚ :=
  (((brt.drop r0).take (r1 - r0)).map
    (fun row => (row.drop c0).take (c1 - c0))).flatten

/-- Translates line 180: the floor sub-region
`brt[int(h*0.6):int(h*0.8), int(w*0.2):int(w*0.8)]`. -/
def floorRegion (brt : LuminanceMap) : List ℚ :=
  let h := brt.length
  let w := (brt.headD []).length
  subSlice brt (scanIndex 0.6 h) (scanIndex 0.8 h) (scanIndex 0.2 w) (scanIndex 0.8 w)

/-- Result record of `analyze_reflection_quality` (lines 188-192).
The field `floor_var` carries the exact population variance of the
region; the source reports `np.std(floor) * 100`, which is
`Real.sqrt floor_var * 100` (see `floor_brightness_std`). -/
structure ReflectionReport where
  floor_var : ℚ
  floor_max_brightness : ℚ
  floor_has_variation : VariationClass
deriving DecidableEq

/-- Translates `analyze_reflection_quality` (lines 171-192). The code
classifies on `floor_std = np.std(floor) * 100` with
`YES if floor_std > 3.0 else WEAK if floor_std > 1.0 else NO`; since
`floor_std` is the nonnegative square root of the variance scaled by
100, `floor_std > c` is equivalent to `10000 * var > c ^ 2`, which keeps
the definition computable; the equivalence with the square-root
comparison is proved in the reflection theorem. -/
def analyze_reflection_quality (brt : LuminanceMap) : ReflectionReport :=
  let region := floorRegion brt
  let v := popVar region
  { floor_var := v
    floor_max_brightness := listMax region * 100
    floor_has_variation :=
      if 9 < 10000 * v then .YES else if 1 < 10000 * v then .WEAK else .NO }

/-- The exact value reported as `floor_brightness_std` at line 181:
`np.std(floor) * 100`, the square root of the population variance of
the floor region, scaled by 100. -/
noncomputable def floor_brightness_std (brt : LuminanceMap) : ℝ :=
  Real.sqrt ((popVar (floorRegion brt) : ℚ) : ℝ) * 100

/-- The region statistics of `analyze_regions` (lines 141-169), in
source order. -/
structure RegionReport where
  center_mean : ℚ
  center_p95 : ℚ
  bottom_mean : ℚ
  bottom_p95 : ℚ
  top_mean : ℚ
  top_p95 : ℚ
  left_mean : ℚ
  right_mean : ℚ
deriving DecidableEq

/-- Translates `analyze_regions` (lines 141-169): five fractional
sub-rectangles of the luminance map; mean for all five, plus the 95th
percentile for center, bottom and top. When one of those three slices
is empty, `np.percentile` raises an IndexError and the program dies
with no report: that unhandled exception is modelled as `none`.
`np.mean` of an empty slice only yields nan with a warning, so an empty
left or right edge slice (for example `left` whenever `int(0.15 * w)`
is 0, that is w < 7) does not fail; its nan mean is junk (0) here and
no theorem asserts the mean of a possibly-empty slice. -/
def analyze_regions (brt : LuminanceMap) : Option RegionReport :=
  let h := brt.length
  let w := (brt.headD []).length
  let center := subSlice brt (scanIndex 0.3 h) (scanIndex 0.7 h)
    (scanIndex 0.3 w) (scanIndex 0.7 w)
  let bottom := subSlice brt (scanIndex 0.6 h) (scanIndex 0.9 h)
    (scanIndex 0.2 w) (scanIndex 0.8 w)
  let top := subSlice brt (scanIndex 0.1 h) (scanIndex 0.3 h)
    (scanIndex 0.2 w) (scanIndex 0.8 w)
  let left := subSlice brt (scanIndex 0.3 h) (scanIndex 0.7 h) 0 (scanIndex 0.15 w)
  let right := subSlice brt (scanIndex 0.3 h) (scanIndex 0.7 h) (scanIndex 0.85 w) w
  if center.isEmpty || bottom.isEmpty || top.isEmpty then none
  else some
    { center_mean := listMean center * 100
      center_p95 := percentile center 95 * 100
      bottom_mean := listMean bottom * 100
      bottom_p95 := percentile bottom 95 * 100
      top_mean := listMean top * 100
      top_p95 := percentile top 95 * 100
      left_mean := listMean left * 100
      right_mean := listMean right * 100 }

/-- The four grid verdicts of lines 221-228. -/
inductive Verdict where
  | EXCELLENT
  | GOOD
  | WEAK
  | INVISIBLE
deriving DecidableEq

/-- Translates the verdict chain of `format_report` (lines 221-228),
first match wins. -/
def grid_verdict (avgC avgP : ℚ) : Verdict :=
  if 5.0 < avgC ∧ 3 < avgP then .EXCELLENT
  else if 3.0 < avgC ∧ 2 < avgP then .GOOD
  else if 1.5 < avgC then .WEAK
  else .INVISIBLE

/-- Translates line 215: `np.mean` of the contrast ratios of all scan
results. -/
def avg_contrast (grid : List ScanResult) : ℚ :=
  ((grid.map (fun r => r.contrast)).sum) / (grid.length : ℚ)

/-- Translates line 216: `np.mean` of the peak counts of all scan
results. -/
def avg_peaks (grid : List ScanResult) : ℚ :=
  ((grid.map (fun r => (r.peak_count : ℚ))).sum) / (grid.length : ℚ)

/-- Issue string of line 252. -/
def msgTooDark : String :=
  "TOO DARK: >70% of pixels are true black — emission values need to go up"

/-- Issue string of line 254. -/
def msgNoGridFloor : String :=
  "NO GRID FLOOR: Almost no pixels in the grid-line brightness range (6-15%)"

/-- Issue string of line 256. -/
def msgLowContrast : String :=
  "LOW CONTRAST: Grid lines not distinguishable from floor"

/-- Issue string of line 258. -/
def msgNoCyan : String :=
  "NO CYAN: Grid emissives not registering — emission multiplier too low"

/-- Issue string of line 260. -/
def msgNoSSR : String :=
  "NO SSR: Floor shows no brightness variation — reflections may not be working"

/-- Issue string of line 262. -/
def msgBloom : String :=
  "BLOOM OVERLOAD: >15% of pixels are hot white — reduce emission or glow"

/-- The no-issue line of line 265 (without its indentation). -/
def msgNoIssues : String := "✓ No major issues detected"

/-- Translates the issue rules of `format_report` (lines 250-262):
six independent conditionals appending to the issue list, in source
order. -/
def issues (black dark hot avgC cyan : ℚ) (refl : VariationClass) : List String :=
  (if 70 < black then [msgTooDark] else [])
    ++ (if 50 < black ∧ dark < 5 then [msgNoGridFloor] else [])
    ++ (if avgC < 2.0 then [msgLowContrast] else [])
    ++ (if cyan < 1.0 then [msgNoCyan] else [])
    ++ (if refl = VariationClass.NO then [msgNoSSR] else [])
    ++ (if 15 < hot then [msgBloom] else [])

/-- Translates lines 264-268: the overall-assessment lines are the
no-issue line when no rule fired, and the fired issues otherwise. -/
def assessment (black dark hot avgC cyan : ℚ) (refl : VariationClass) : List String :=
  let fired := issues black dark hot avgC cyan refl
  if fired.isEmpty then [msgNoIssues] else fired

/-- The structured output of one run: the analyzer reports, the grid
verdict and the assessment lines of `format_report`. -/
structure Report where
  dist : DistributionReport
  grid : List ScanResult
  colors : ColorReport
  regions : RegionReport
  refl : ReflectionReport
  verdict : Verdict
  assessment : List String
deriving DecidableEq

/-- Translates the analysis portion of `main` (lines 291-302) together
with the failure modes of the core: fewer than 3 channels raise an
IndexError inside `brightness` (modelled by `brightnessChecked`), a
buffer with zero pixels raises inside `analyze_brightness_distribution`
(`np.percentile` and `np.max` of an empty array), and a buffer whose
center, bottom or top region slice is empty raises inside
`analyze_regions` at line 298 (`np.percentile` of an empty slice, for
example whenever the height is at most 3); each unhandled exception is
modelled as `none`, in the order `main` runs the analyzers, and no
report is produced. The code performs no input validation of its own. -/
def run_main (img : PixelBuffer) : Option Report :=
  match brightnessChecked img with
  | none => none
  | some brt =>
    if brt.flatten.length = 0 then none
    else
      let dist := analyze_brightness_distribution brt
      let grid := analyze_grid_lines brt
      let colors := analyze_color_channels img
      match analyze_regions brt with
      | none => none
      | some regions =>
        let refl := analyze_reflection_quality brt
        let avgC := avg_contrast grid
        let avgP := avg_peaks grid
        some { dist := dist, grid := grid, colors := colors, regions := regions
               refl := refl
               verdict := grid_verdict avgC avgP
               assessment := assessment dist.black dist.dark dist.hot avgC
                 colors.cyan refl.floor_has_variation }

/-- Uniform black buffer of the end-to-end scenario A: every channel of
every pixel is 0. -/
def allBlack (h w : ℕ) : PixelBuffer :=
  List.replicate h (List.replicate w ([0, 0, 0] : Pixel))

/-- Alternating low/high sequence of the given length, starting low. -/
def altSeq (lo hi : ℚ) : ℕ → List ℚ
  | 0 => []
  | 1 => [lo]
  | n + 2 => lo :: hi :: altSeq lo hi n

/-- The scan result the code produces on an all-zero scan sequence: both
percentiles are 0, the floor level is clamped to 0.001 (reported as 0.1
after the x100 scaling), and the contrast is 0 / 0.001 = 0. -/
def zeroScan : ScanResult :=
  { floor_brightness := 0.1, line_brightness := 0, contrast := 0, peak_count := 0 }

/-- A 5x5 buffer whose pixels all have four channels: malformed with
respect to the h x w x 3 input contract, yet processed without error by
the code (numpy ignores the extra channel). -/
def fourChan : PixelBuffer :=
  List.replicate 5 (List.replicate 5 ([0.5, 0.5, 0.5, 0.5] : Pixel))

/-! ## Helper lemmas -/

theorem bool_ite_toNat (b : Bool) : (if b = true then 1 else 0) = b.toNat := by
  cases b <;> rfl

theorem band_sum_one (x : ℚ) :
    (bandBlack x).toNat + (bandVdark x).toNat + (bandDark x).toNat
      + (bandMid x).toNat + (bandBright x).toNat + (bandHot x).toNat = 1 := by
  unfold bandBlack bandVdark bandDark bandMid bandBright bandHot
  rcases lt_or_le x 0.02 with h | h
  · have h2 : ¬ (0.02:ℚ) ≤ x := by linarith
    have h3 : ¬ (0.06:ℚ) ≤ x := by linarith
    have h4 : ¬ (0.15:ℚ) ≤ x := by linarith
    have h5 : ¬ (0.40:ℚ) ≤ x := by linarith
    have h6 : ¬ (0.70:ℚ) ≤ x := by linarith
    simp [h, h2, h3, h4, h5, h6]
  rcases lt_or_le x 0.06 with h' | h'
  · have h1 : ¬ x < 0.02 := by linarith
    have h3 : ¬ (0.06:ℚ) ≤ x := by linarith
    have h4 : ¬ (0.15:ℚ) ≤ x := by linarith
    have h5 : ¬ (0.40:ℚ) ≤ x := by linarith
    have h6 : ¬ (0.70:ℚ) ≤ x := by linarith
    simp [h, h', h1, h3, h4, h5, h6]
  rcases lt_or_le x 0.15 with h'' | h''
  · have h1 : ¬ x < 0.02 := by linarith
    have h2 : ¬ x < 0.06 := by linarith
    have h4 : ¬ (0.15:ℚ) ≤ x := by linarith
    have h5 : ¬ (0.40:ℚ) ≤ x := by linarith
    have h6 : ¬ (0.70:ℚ) ≤ x := by linarith
    simp [h', h'', h1, h2, h4, h5, h6]
  rcases lt_or_le x 0.40 with h3 | h3
  · have h1 : ¬ x < 0.02 := by linarith
    have h2 : ¬ x < 0.06 := by linarith
    have hh : ¬ x < 0.15 := by linarith
    have h5 : ¬ (0.40:ℚ) ≤ x := by linarith
    have h6 : ¬ (0.70:ℚ) ≤ x := by linarith
    simp [h'', h3, h1, h2, hh, h5, h6]
  rcases lt_or_le x 0.70 with h4 | h4
  · have h1 : ¬ x < 0.02 := by linarith
    have h2 : ¬ x < 0.06 := by linarith
    have hh : ¬ x < 0.15 := by linarith
    have hm : ¬ x < 0.40 := by linarith
    have h6 : ¬ (0.70:ℚ) ≤ x := by linarith
    simp [h3, h4, h1, h2, hh, hm, h6]
  · have h1 : ¬ x < 0.02 := by linarith
    have h2 : ¬ x < 0.06 := by linarith
    have hh : ¬ x < 0.15 := by linarith
    have hm : ¬ x < 0.40 := by linarith
    have hb : ¬ x < 0.70 := by linarith
    simp [h4, h1, h2, hh, hm, hb]

theorem countP_bands (xs : List ℚ) :
    xs.countP bandBlack + xs.countP bandVdark + xs.countP bandDark
      + xs.countP bandMid + xs.countP bandBright + xs.countP bandHot
      = xs.length := by
  induction xs with
  | nil => rfl
  | cons x l ih =>
    simp only [List.countP_cons, List.length_cons, bool_ite_toNat]
    have := band_sum_one x
    omega

theorem count_peaks_cons_cons (x y : ℚ) (l : List ℚ) (t : ℚ) :
    count_peaks (x :: y :: l) t
      = count_peaks (y :: l) t + (if x ≤ t ∧ t < y then 1 else 0) := by
  have hc : ((!decide (t < x) && decide (t < y)) = true) ↔ (x ≤ t ∧ t < y) := by
    simp [not_lt]
  simp only [count_peaks, List.map_cons, List.tail_cons, List.zip_cons_cons,
    List.countP_cons]
  rw [if_congr hc rfl rfl]

theorem count_peaks_cons_of_gt (x t : ℚ) (hx : ¬ x ≤ t) (l : List ℚ) :
    count_peaks (x :: l) t = count_peaks l t := by
  cases l with
  | nil => rfl
  | cons z l' => rw [count_peaks_cons_cons]; simp [hx]

theorem count_peaks_eq_countP (arr : List ℚ) (t : ℚ) :
    count_peaks arr t
      = (List.range (arr.length - 1)).countP
          (fun i => decide (arr.getD i 0 ≤ t) && decide (t < arr.getD (i + 1) 0)) := by
  induction arr with
  | nil => rfl
  | cons x xs ih =>
    cases xs with
    | nil => rfl
    | cons y l =>
      rw [count_peaks_cons_cons, ih]
      have hcomp :
          ((fun i => decide ((x :: y :: l).getD i 0 ≤ t)
              && decide (t < (x :: y :: l).getD (i + 1) 0)) ∘ Nat.succ)
            = fun i => decide ((y :: l).getD i 0 ≤ t)
                && decide (t < (y :: l).getD (i + 1) 0) := by
        funext i
        simp [List.getD_cons_succ]
      simp only [List.length_cons, Nat.add_sub_cancel, List.range_succ_eq_map,
        List.countP_cons, List.countP_map, hcomp]
      have hzero : ((decide ((x :: y :: l).getD 0 0 ≤ t)
          && decide (t < (x :: y :: l).getD (0 + 1) 0)) = true) ↔ (x ≤ t ∧ t < y) := by
        simp
      try rw [if_congr hzero rfl rfl]
      try omega

theorem count_peaks_replicate (c t : ℚ) (n : ℕ) :
    count_peaks (List.replicate n c) t = 0 := by
  induction n with
  | zero => rfl
  | succ m ih =>
    cases m with
    | zero => rfl
    | succ k =>
      rw [List.replicate_succ, List.replicate_succ, count_peaks_cons_cons,
        ← List.replicate_succ]
      have : ¬ (c ≤ t ∧ t < c) := by rintro ⟨h1, h2⟩; linarith
      simp [this, ih]

theorem count_peaks_altSeq (lo hi t : ℚ) (h1 : lo ≤ t) (h2 : t < hi) :
    ∀ n, count_peaks (altSeq lo hi n) t = n / 2 := by
  intro n
  induction n using Nat.strong_induction_on with
  | _ n ih =>
    match n with
    | 0 => rfl
    | 1 => rfl
    | (m + 2) =>
      have hm := ih m (by omega)
      have hstep : altSeq lo hi (m + 2) = lo :: hi :: altSeq lo hi m := rfl
      rw [hstep, count_peaks_cons_cons, count_peaks_cons_of_gt hi t (not_le.mpr h2),
        hm, if_pos ⟨h1, h2⟩]
      omega

theorem getD_map_rows (img : PixelBuffer) (i : ℕ) :
    (brightness img).getD i [] = (img.getD i []).map lum := by
  induction img generalizing i with
  | nil => cases i <;> rfl
  | cons r rs ih => cases i with
    | zero => rfl
    | succ k => simpa [brightness] using ih k

/-! ## Claim theorems -/

/-- C1: on a non-empty LuminanceMap each pixel value satisfies exactly one
of the six band predicates, and the six percentages reported by
`analyze_brightness_distribution` sum to exactly 100 (exact rational
arithmetic; the float computation agrees to within rounding). -/
theorem C1_band_partition (brt : LuminanceMap) (hne : brt.flatten ≠ [])
    (hrange : ∀ x ∈ brt.flatten, 0 ≤ x ∧ x ≤ 1) :
    (∀ x ∈ brt.flatten,
      (bandBlack x).toNat + (bandVdark x).toNat + (bandDark x).toNat
        + (bandMid x).toNat + (bandBright x).toNat + (bandHot x).toNat = 1)
    ∧ (analyze_brightness_distribution brt).black
        + (analyze_brightness_distribution brt).vdark
        + (analyze_brightness_distribution brt).dark
        + (analyze_brightness_distribution brt).mid
        + (analyze_brightness_distribution brt).bright
        + (analyze_brightness_distribution brt).hot = 100 := by
  refine ⟨fun x _ => band_sum_one x, ?_⟩
  have hlen : brt.flatten.length ≠ 0 := fun h => hne (List.length_eq_zero.mp h)
  have htot : ((brt.flatten.length : ℚ)) ≠ 0 := by exact_mod_cast hlen
  have hcount := countP_bands brt.flatten
  have key : ∀ (a b c d e f n : ℕ), (n:ℚ) ≠ 0 → a + b + c + d + e + f = n →
      (a:ℚ)/(n:ℚ)*100 + (b:ℚ)/(n:ℚ)*100 + (c:ℚ)/(n:ℚ)*100 + (d:ℚ)/(n:ℚ)*100
        + (e:ℚ)/(n:ℚ)*100 + (f:ℚ)/(n:ℚ)*100 = 100 := by
    intro a b c d e f n hn h
    have hq : (a:ℚ) + b + c + d + e + f = (n:ℚ) := by exact_mod_cast h
    field_simp
    linarith
  exact key _ _ _ _ _ _ _ htot hcount

/-- Witness for C1 at the one-pixel all-black map. -/
theorem C1_band_partition_witness :
    (([[0]] : LuminanceMap).flatten ≠ []
      ∧ ∀ x ∈ ([[0]] : LuminanceMap).flatten, 0 ≤ x ∧ x ≤ 1)
    ∧ (analyze_brightness_distribution [[0]]).black
        + (analyze_brightness_distribution [[0]]).vdark
        + (analyze_brightness_distribution [[0]]).dark
        + (analyze_brightness_distribution [[0]]).mid
        + (analyze_brightness_distribution [[0]]).bright
        + (analyze_brightness_distribution [[0]]).hot = 100 :=
  ⟨⟨by decide, by decide⟩, (C1_band_partition [[0]] (by decide) (by decide)).2⟩

/-- C3: `count_peaks` counts exactly the indices i with
sequence[i] ≤ t and sequence[i+1] > t (one per rising edge); it returns 0
on every constant sequence, and n / 2 (rounded down) on the alternating
low/high sequence of length n with the threshold between the two values. -/
theorem C3_count_peaks_spec :
    (∀ (arr : List ℚ) (t : ℚ),
      count_peaks arr t
        = (List.range (arr.length - 1)).countP
            (fun i => decide (arr.getD i 0 ≤ t) && decide (t < arr.getD (i + 1) 0)))
    ∧ (∀ (c t : ℚ) (n : ℕ), count_peaks (List.replicate n c) t = 0)
    ∧ (∀ (lo hi t : ℚ), lo ≤ t → t < hi →
        ∀ n : ℕ, count_peaks (altSeq lo hi n) t = n / 2) :=
  ⟨count_peaks_eq_countP, count_peaks_replicate,
    fun _ _ _ h1 h2 => count_peaks_altSeq _ _ _ h1 h2⟩

/-- Witness for C3: the alternating sequence 0,2,0,2,0 with threshold 1
has 5 / 2 = 2 rising edges. -/
theorem C3_count_peaks_spec_witness :
    count_peaks (altSeq 0 2 5) 1 = 2 :=
  C3_count_peaks_spec.2.2 0 2 1 (by norm_num) (by norm_num) 5

/-- C4: the divisor of the contrast computation is
max(20th percentile, 0.001): it is positive, the contrast of every scan
line is the line level divided by it, and the division is genuine
(multiplying back recovers the line level), so contrast is defined for
every input scan line. -/
theorem C4_divisor_clamped (seq : List ℚ) :
    floor_divisor seq = max (percentile seq 20) 0.001
    ∧ 0 < floor_divisor seq
    ∧ (scanline seq).contrast = percentile seq 90 / floor_divisor seq
    ∧ (scanline seq).contrast * floor_divisor seq = percentile seq 90 := by
  have hpos : 0 < floor_divisor seq := by
    unfold floor_divisor
    split_ifs with h
    · norm_num
    · have := not_lt.mp h
      linarith
  refine ⟨?_, hpos, rfl, ?_⟩
  · unfold floor_divisor
    split_ifs with h
    · exact (max_eq_right (le_of_lt h)).symm
    · exact (max_eq_left (not_lt.mp h)).symm
  · exact div_mul_cancel₀ _ (ne_of_gt hpos)

/-- C5: the grid verdict is decided from the average contrast and the
average peak count by the first-match rule chain of `format_report`:
EXCELLENT, else GOOD, else WEAK, else INVISIBLE, and exactly one of the
four verdicts is produced. -/
theorem C5_verdict_rules (g : List ScanResult) :
    (grid_verdict (avg_contrast g) (avg_peaks g) = .EXCELLENT
      ↔ 5.0 < avg_contrast g ∧ 3 < avg_peaks g)
    ∧ (grid_verdict (avg_contrast g) (avg_peaks g) = .GOOD
      ↔ ¬(5.0 < avg_contrast g ∧ 3 < avg_peaks g)
        ∧ (3.0 < avg_contrast g ∧ 2 < avg_peaks g))
    ∧ (grid_verdict (avg_contrast g) (avg_peaks g) = .WEAK
      ↔ ¬(5.0 < avg_contrast g ∧ 3 < avg_peaks g)
        ∧ ¬(3.0 < avg_contrast g ∧ 2 < avg_peaks g) ∧ 1.5 < avg_contrast g)
    ∧ (grid_verdict (avg_contrast g) (avg_peaks g) = .INVISIBLE
      ↔ ¬(5.0 < avg_contrast g ∧ 3 < avg_peaks g)
        ∧ ¬(3.0 < avg_contrast g ∧ 2 < avg_peaks g) ∧ avg_contrast g ≤ 1.5)
    ∧ (grid_verdict (avg_contrast g) (avg_peaks g) = .EXCELLENT
        ∨ grid_verdict (avg_contrast g) (avg_peaks g) = .GOOD
        ∨ grid_verdict (avg_contrast g) (avg_peaks g) = .WEAK
        ∨ grid_verdict (avg_contrast g) (avg_peaks g) = .INVISIBLE) := by
  unfold grid_verdict
  split_ifs with h1 h2 h3 <;> simp_all [not_lt]

/-- C9: the luminance transform preserves the spatial dimensions, every
output value is the BT.709 weighted sum of the pixel channels, and for
channels in [0, 1] every output value lies in [0, 1]. -/
theorem C9_luminance_transform (img : PixelBuffer)
    (hpix : ∀ row ∈ img, ∀ p ∈ row, p.length = 3 ∧ ∀ c ∈ p, 0 ≤ c ∧ c ≤ 1) :
    (brightness img).length = img.length
    ∧ (∀ i : ℕ, ((brightness img).getD i []).length = (img.getD i []).length)
    ∧ ∀ i j : ℕ, i < img.length → j < (img.getD i []).length →
        ((brightness img).getD i []).getD j 0
            = 0.2126 * ((img.getD i []).getD j []).getD 0 0
              + 0.7152 * ((img.getD i []).getD j []).getD 1 0
              + 0.0722 * ((img.getD i []).getD j []).getD 2 0
          ∧ 0 ≤ ((brightness img).getD i []).getD j 0
          ∧ ((brightness img).getD i []).getD j 0 ≤ 1 := by
  have hbnd : ∀ p : Pixel, p.length = 3 → (∀ c ∈ p, 0 ≤ c ∧ c ≤ 1) →
      0 ≤ lum p ∧ lum p ≤ 1 := by
    intro p h3 hc
    have hc0 : p.getD 0 0 ∈ p := by
      rw [List.getD_eq_getElem _ _ (by omega)]
      exact List.getElem_mem (by omega)
    have hc1 : p.getD 1 0 ∈ p := by
      rw [List.getD_eq_getElem _ _ (by omega)]
      exact List.getElem_mem (by omega)
    have hc2 : p.getD 2 0 ∈ p := by
      rw [List.getD_eq_getElem _ _ (by omega)]
      exact List.getElem_mem (by omega)
    obtain ⟨hb0, hb0u⟩ := hc _ hc0
    obtain ⟨hb1, hb1u⟩ := hc _ hc1
    obtain ⟨hb2, hb2u⟩ := hc _ hc2
    unfold lum
    constructor <;> linarith
  refine ⟨by simp [brightness], fun i => by rw [getD_map_rows]; simp, ?_⟩
  intro i j hi hj
  have hrow : img.getD i [] ∈ img := by
    rw [List.getD_eq_getElem _ _ hi]
    exact List.getElem_mem hi
  have hp : (img.getD i []).getD j [] ∈ img.getD i [] := by
    rw [List.getD_eq_getElem _ _ hj]
    exact List.getElem_mem hj
  obtain ⟨hlen3, hchan⟩ := hpix _ hrow _ hp
  have hval : ((brightness img).getD i []).getD j 0
      = lum ((img.getD i []).getD j []) := by
    rw [getD_map_rows]
    rw [List.getD_eq_getElem _ _ (by simpa using hj), List.getD_eq_getElem _ _ hj,
      List.getElem_map]
  obtain ⟨hlo, hhi⟩ := hbnd _ hlen3 hchan
  exact ⟨hval, by rw [hval]; exact hlo, by rw [hval]; exact hhi⟩

/-- Witness for C9 at a one-pixel pure-red buffer. -/
theorem C9_luminance_transform_witness :
    (∀ row ∈ ([[[1, 0, 0]]] : PixelBuffer), ∀ p ∈ row,
      p.length = 3 ∧ ∀ c ∈ p, 0 ≤ c ∧ c ≤ 1)
    ∧ (brightness [[[1, 0, 0]]]).length = ([[[1, 0, 0]]] : PixelBuffer).length :=
  ⟨by decide, (C9_luminance_transform [[[1, 0, 0]]] (by decide)).1⟩

/-- C10: every scan index int(frac * dim) computed by the grid line
detector, for the five horizontal and three vertical fractions, is
strictly below the dimension whenever the dimension is at least 1, so
row and column extraction stays in bounds. -/
theorem C10_scan_index_bounds (d : ℕ) (hd : 1 ≤ d) :
    ∀ f ∈ hFracs ++ vFracs, scanIndex f d < d := by
  intro f hf
  have hd0 : (0:ℚ) < (d:ℚ) := by exact_mod_cast hd
  have key : ∀ q : ℚ, 0 ≤ q → q < 1 → scanIndex q d < d := by
    intro q hq0 hq1
    have hlt : q * (d:ℚ) < (d:ℚ) := by nlinarith
    have h0 : (0:ℚ) ≤ q * (d:ℚ) := by positivity
    rw [scanIndex, Nat.floor_lt h0]
    exact hlt
  have hf2 : f ∈ ([0.40, 0.45, 0.50, 0.55, 0.60, 0.40, 0.50, 0.60] : List ℚ) := by
    simpa [hFracs, vFracs] using hf
  fin_cases hf2 <;> exact key _ (by norm_num) (by norm_num)

/-- Witness for C10 at dimension 1 and fraction 0.40. -/
theorem C10_scan_index_bounds_witness :
    1 ≤ 1 ∧ scanIndex 0.40 1 < 1 :=
  ⟨le_refl 1, C10_scan_index_bounds 1 (le_refl 1) 0.40 (by simp [hFracs, vFracs])⟩

theorem popVar_nonneg (xs : List ℚ) : 0 ≤ popVar xs := by
  apply div_nonneg
  · apply List.sum_nonneg
    intro x hx
    obtain ⟨y, _, hyx⟩ := List.mem_map.mp hx
    rw [← hyx]
    positivity
  · positivity

theorem popVar_const (xs : List ℚ) (c : ℚ) (hc : ∀ x ∈ xs, x = c) :
    popVar xs = 0 := by
  rcases eq_or_ne xs [] with h | h
  · subst h; simp [popVar]
  · have hn : xs.length ≠ 0 := fun h0 => h (List.length_eq_zero.mp h0)
    have hnq : ((xs.length : ℚ)) ≠ 0 := by exact_mod_cast hn
    have hrep : xs = List.replicate xs.length c := List.eq_replicate_iff.mpr ⟨rfl, hc⟩
    have hsum : xs.sum = (xs.length : ℚ) * c := by
      conv_lhs => rw [hrep]
      simp [List.sum_replicate, nsmul_eq_mul]
    have hmean : listMean xs = c := by
      rw [listMean, hsum, mul_comm, mul_div_assoc, div_self hnq, mul_one]
    have hmap : xs.map (fun x => (x - listMean xs) ^ 2)
        = List.replicate xs.length 0 := by
      apply List.eq_replicate_iff.mpr
      refine ⟨by simp, ?_⟩
      intro b hb
      obtain ⟨x, hx, hbx⟩ := List.mem_map.mp hb
      rw [← hbx, hmean, hc x hx, sub_self]
      ring
    rw [popVar, hmap]
    simp

theorem listMax_mem (xs : List ℚ) (h : xs ≠ []) : listMax xs ∈ xs := by
  induction xs with
  | nil => exact absurd rfl h
  | cons x l ih =>
    cases l with
    | nil => simp [listMax]
    | cons y l' =>
      show max x (listMax (y :: l')) ∈ x :: y :: l'
      rcases max_cases x (listMax (y :: l')) with ⟨he, _⟩ | ⟨he, _⟩
      · rw [he]; exact List.mem_cons_self _ _
      · rw [he]; exact List.mem_cons_of_mem _ (ih (by simp))

theorem le_listMax (xs : List ℚ) : ∀ x ∈ xs, x ≤ listMax xs := by
  induction xs with
  | nil => intro x hx; exact absurd hx (List.not_mem_nil x)
  | cons x l ih =>
    intro z hz
    cases l with
    | nil =>
      have : z = x := by simpa using hz
      rw [this]
      simp [listMax]
    | cons y l' =>
      show z ≤ max x (listMax (y :: l'))
      rcases List.mem_cons.mp hz with h | h
      · rw [h]; exact le_max_left _ _
      · exact le_trans (ih z h) (le_max_right _ _)

theorem headD_replicate_succ {α : Type} (n : ℕ) (a d : α) :
    (List.replicate (n + 1) a).headD d = a := by
  rw [List.replicate_succ, List.headD_cons]

theorem flatten_replicate_replicate {α : Type} (h w : ℕ) (a : α) :
    (List.replicate h (List.replicate w a)).flatten = List.replicate (h * w) a := by
  induction h with
  | zero => simp
  | succ m ih =>
    rw [List.replicate_succ, List.flatten_cons, ih, Nat.succ_mul, Nat.add_comm,
      List.replicate_add]

theorem subSlice_replicate (h w r0 r1 c0 c1 : ℕ) (a : ℚ) :
    subSlice (List.replicate h (List.replicate w a)) r0 r1 c0 c1
      = List.replicate (min (r1 - r0) (h - r0) * min (c1 - c0) (w - c0)) a := by
  rw [subSlice, List.drop_replicate, List.take_replicate, List.map_replicate,
    List.drop_replicate, List.take_replicate, flatten_replicate_replicate]

theorem floorRegion_replicate (h w : ℕ) (hh : h ≠ 0) (a : ℚ) :
    floorRegion (List.replicate h (List.replicate w a))
      = List.replicate
          (min (scanIndex 0.8 h - scanIndex 0.6 h) (h - scanIndex 0.6 h)
            * min (scanIndex 0.8 w - scanIndex 0.2 w) (w - scanIndex 0.2 w)) a := by
  obtain ⟨m, rfl⟩ : ∃ m, h = m + 1 := ⟨h - 1, by omega⟩
  simp only [floorRegion, List.length_replicate, headD_replicate_succ]
  rw [subSlice_replicate]

theorem std_scale_lt_iff (v c : ℚ) (hv : 0 ≤ v) (hc : 0 ≤ c) :
    ((c:ℝ) < Real.sqrt ((v : ℚ) : ℝ) * 100 ↔ c ^ 2 < 10000 * v) := by
  have h1 : ((c:ℝ) < Real.sqrt ((v : ℚ) : ℝ) * 100)
      ↔ ((c:ℝ)) / 100 < Real.sqrt ((v : ℚ) : ℝ) :=
    (div_lt_iff₀ (by norm_num)).symm
  have h2 : (((c:ℝ)) / 100 < Real.sqrt ((v : ℚ) : ℝ))
      ↔ ((c:ℝ) / 100) ^ 2 < ((v : ℚ) : ℝ) :=
    Real.lt_sqrt (by positivity)
  have h3 : (((c:ℝ) / 100) ^ 2 < ((v : ℚ) : ℝ))
      ↔ ((c:ℝ) ^ 2 < 10000 * ((v : ℚ) : ℝ)) := by
    rw [div_pow]
    rw [div_lt_iff₀ (by norm_num : (0:ℝ) < 100 ^ 2)]
    constructor <;> intro hx <;> nlinarith
  rw [h1, h2, h3]
  exact_mod_cast Iff.rfl

/-- C6: the reflection estimator divides by N (population variance, not
sample variance), reports the maximum of the floor sub-region scaled by
100, and classifies YES exactly when the reported standard deviation
(the square root of the variance, scaled by 100) exceeds 3, WEAK exactly
when it lies in (1, 3], and NO exactly when it is at most 1; a uniform
sub-region has variance 0, standard deviation 0 and classification NO. -/
theorem C6_reflection_estimator (brt : LuminanceMap)
    (hne : floorRegion brt ≠ []) :
    ((analyze_reflection_quality brt).floor_var * ((floorRegion brt).length : ℚ)
        = ((floorRegion brt).map
            (fun x => (x - listMean (floorRegion brt)) ^ 2)).sum)
    ∧ ((analyze_reflection_quality brt).floor_has_variation = .YES
        ↔ 3 < floor_brightness_std brt)
    ∧ ((analyze_reflection_quality brt).floor_has_variation = .WEAK
        ↔ 1 < floor_brightness_std brt ∧ floor_brightness_std brt ≤ 3)
    ∧ ((analyze_reflection_quality brt).floor_has_variation = .NO
        ↔ floor_brightness_std brt ≤ 1)
    ∧ (∃ m ∈ floorRegion brt,
        (analyze_reflection_quality brt).floor_max_brightness = m * 100
          ∧ ∀ x ∈ floorRegion brt, x ≤ m)
    ∧ ((∀ x ∈ floorRegion brt, ∀ y ∈ floorRegion brt, x = y) →
        (analyze_reflection_quality brt).floor_var = 0
          ∧ floor_brightness_std brt = 0
          ∧ (analyze_reflection_quality brt).floor_has_variation = .NO) := by
  have hv0 : (0:ℚ) ≤ popVar (floorRegion brt) := popVar_nonneg _
  have hlen : ((floorRegion brt).length : ℚ) ≠ 0 := by
    have : (floorRegion brt).length ≠ 0 :=
      fun h0 => hne (List.length_eq_zero.mp h0)
    exact_mod_cast this
  have hY : 3 < floor_brightness_std brt ↔ 9 < 10000 * popVar (floorRegion brt) := by
    have h := std_scale_lt_iff (popVar (floorRegion brt)) 3 hv0 (by norm_num)
    norm_num at h
    rw [floor_brightness_std]
    exact_mod_cast h
  have hW : 1 < floor_brightness_std brt ↔ 1 < 10000 * popVar (floorRegion brt) := by
    have h := std_scale_lt_iff (popVar (floorRegion brt)) 1 hv0 (by norm_num)
    norm_num at h
    rw [floor_brightness_std]
    exact_mod_cast h
  have hcls : (analyze_reflection_quality brt).floor_has_variation
      = (if 9 < 10000 * popVar (floorRegion brt) then VariationClass.YES
          else if 1 < 10000 * popVar (floorRegion brt) then VariationClass.WEAK
          else VariationClass.NO) := rfl
  refine ⟨?_, ?_, ?_, ?_, ?_, ?_⟩
  · show popVar (floorRegion brt) * ((floorRegion brt).length : ℚ) = _
    rw [popVar, div_mul_cancel₀ _ hlen]
  · rw [hcls, hY]
    split_ifs with h1 h2
    · simp [h1]
    · simp [h1]
    · simp [h1]
  · rw [hcls]
    rw [show (1 < floor_brightness_std brt ∧ floor_brightness_std brt ≤ 3)
        ↔ (1 < 10000 * popVar (floorRegion brt)
            ∧ ¬ 9 < 10000 * popVar (floorRegion brt)) from by
      rw [hW, ← hY]; simp [not_lt]]
    split_ifs with h1 h2
    · simp [h1]
    · simp [h1, h2]
    · simp [h2]
  · rw [hcls]
    rw [show (floor_brightness_std brt ≤ 1)
        ↔ ¬ 1 < 10000 * popVar (floorRegion brt) from by rw [← hW]; simp [not_lt]]
    split_ifs with h1 h2
    · have h2 : 1 < 10000 * popVar (floorRegion brt) := lt_trans (by norm_num) h1
      simp [h2]
    · simp [h2]
    · simp [h2]
  · exact ⟨listMax (floorRegion brt), listMax_mem _ hne, rfl, le_listMax _⟩
  · intro huni
    obtain ⟨z, hz⟩ := List.exists_mem_of_ne_nil _ hne
    have hconst : ∀ x ∈ floorRegion brt, x = z := fun x hx => huni x hx z hz
    have hv : popVar (floorRegion brt) = 0 := popVar_const _ z hconst
    refine ⟨hv, ?_, ?_⟩
    · rw [floor_brightness_std, hv]
      norm_num [Real.sqrt_zero]
    · rw [hcls, hv]
      norm_num

/-- Witness for C6 at a uniform white 5x5 map: the floor sub-region is
the non-empty [1, 1, 1] and the classification is NO. -/
theorem C6_reflection_estimator_witness :
    (floorRegion (List.replicate 5 (List.replicate 5 (1:ℚ))) ≠ [])
    ∧ (analyze_reflection_quality
        (List.replicate 5 (List.replicate 5 (1:ℚ)))).floor_has_variation
      = VariationClass.NO := by
  have hreg : floorRegion (List.replicate 5 (List.replicate 5 (1:ℚ)))
      = List.replicate 3 1 := by
    have h6 : scanIndex 0.6 5 = 3 := by
      rw [scanIndex]
      norm_num
    have h8 : scanIndex 0.8 5 = 4 := by
      rw [scanIndex]
      norm_num
    have h2 : scanIndex 0.2 5 = 1 := by
      rw [scanIndex]
      norm_num
    rw [floorRegion_replicate 5 5 (by norm_num) 1, h6, h8, h2]
    norm_num
  have hne : floorRegion (List.replicate 5 (List.replicate 5 (1:ℚ))) ≠ [] := by
    rw [hreg]; simp
  have huni : ∀ x ∈ floorRegion (List.replicate 5 (List.replicate 5 (1:ℚ))),
      ∀ y ∈ floorRegion (List.replicate 5 (List.replicate 5 (1:ℚ))), x = y := by
    intro x hx y hy
    rw [hreg] at hx hy
    rw [List.eq_of_mem_replicate hx, List.eq_of_mem_replicate hy]
  exact ⟨hne, ((C6_reflection_estimator _ hne).2.2.2.2.2 huni).2.2⟩

theorem mem_ite_singleton {c : Prop} [Decidable c] (a b : String) :
    (a ∈ if c then [b] else []) ↔ c ∧ a = b := by
  split_ifs with h <;> simp [h]

theorem issues_eq_nil_iff (black dark hot avgC cyan : ℚ) (refl : VariationClass) :
    issues black dark hot avgC cyan refl = []
      ↔ ¬(70 < black) ∧ ¬(50 < black ∧ dark < 5) ∧ ¬(avgC < 2.0) ∧ ¬(cyan < 1.0)
          ∧ ¬(refl = VariationClass.NO) ∧ ¬(15 < hot) := by
  rw [issues]
  split_ifs <;> simp_all

/-- C7: each of the six issues appears in the issue list exactly when its
own threshold condition holds, independently of the other rules, and the
no-issue line appears in the overall assessment exactly when no rule
fires. -/
theorem C7_issue_rules (black dark hot avgC cyan : ℚ) (refl : VariationClass) :
    (msgTooDark ∈ issues black dark hot avgC cyan refl ↔ 70 < black)
    ∧ (msgNoGridFloor ∈ issues black dark hot avgC cyan refl
        ↔ 50 < black ∧ dark < 5)
    ∧ (msgLowContrast ∈ issues black dark hot avgC cyan refl ↔ avgC < 2.0)
    ∧ (msgNoCyan ∈ issues black dark hot avgC cyan refl ↔ cyan < 1.0)
    ∧ (msgNoSSR ∈ issues black dark hot avgC cyan refl
        ↔ refl = VariationClass.NO)
    ∧ (msgBloom ∈ issues black dark hot avgC cyan refl ↔ 15 < hot)
    ∧ (msgNoIssues ∈ assessment black dark hot avgC cyan refl
        ↔ ¬(70 < black) ∧ ¬(50 < black ∧ dark < 5) ∧ ¬(avgC < 2.0) ∧ ¬(cyan < 1.0)
            ∧ ¬(refl = VariationClass.NO) ∧ ¬(15 < hot)) := by
  refine ⟨?_, ?_, ?_, ?_, ?_, ?_, ?_⟩
  · simp +decide [issues, mem_ite_singleton, List.mem_append, msgTooDark,
      msgNoGridFloor, msgLowContrast, msgNoCyan, msgNoSSR, msgBloom]
  · simp +decide [issues, mem_ite_singleton, List.mem_append, msgTooDark,
      msgNoGridFloor, msgLowContrast, msgNoCyan, msgNoSSR, msgBloom]
  · simp +decide [issues, mem_ite_singleton, List.mem_append, msgTooDark,
      msgNoGridFloor, msgLowContrast, msgNoCyan, msgNoSSR, msgBloom]
  · simp +decide [issues, mem_ite_singleton, List.mem_append, msgTooDark,
      msgNoGridFloor, msgLowContrast, msgNoCyan, msgNoSSR, msgBloom]
  · simp +decide [issues, mem_ite_singleton, List.mem_append, msgTooDark,
      msgNoGridFloor, msgLowContrast, msgNoCyan, msgNoSSR, msgBloom]
  · simp +decide [issues, mem_ite_singleton, List.mem_append, msgTooDark,
      msgNoGridFloor, msgLowContrast, msgNoCyan, msgNoSSR, msgBloom]
  · constructor
    · intro hmem
      by_cases he : issues black dark hot avgC cyan refl = []
      · exact (issues_eq_nil_iff black dark hot avgC cyan refl).mp he
      · exfalso
        have hfired : msgNoIssues ∈ issues black dark hot avgC cyan refl := by
          have hie : (issues black dark hot avgC cyan refl).isEmpty = false := by
            rw [List.isEmpty_eq_false_iff_exists_mem]
            obtain ⟨z, hz⟩ := List.exists_mem_of_ne_nil _ he
            exact ⟨z, hz⟩
          rw [assessment] at hmem
          simp only [hie] at hmem
          exact hmem
        revert hfired
        simp +decide [issues, mem_ite_singleton, List.mem_append, msgTooDark,
          msgNoGridFloor, msgLowContrast, msgNoCyan, msgNoSSR, msgBloom, msgNoIssues]
    · intro hc
      have he : issues black dark hot avgC cyan refl = [] :=
        (issues_eq_nil_iff black dark hot avgC cyan refl).mpr hc
      rw [assessment]
      simp [he]

theorem countP_replicate {α : Type} (p : α → Bool) (n : ℕ) (a : α) :
    (List.replicate n a).countP p = if p a then n else 0 := by
  induction n with
  | zero => simp
  | succ m ih =>
    rw [List.replicate_succ, List.countP_cons, ih]
    cases hp : p a <;> simp [hp]

theorem scanIndex_lt_dim (f : ℚ) (d : ℕ) (hd : 1 ≤ d) (h0 : 0 ≤ f) (h1 : f < 1) :
    scanIndex f d < d := by
  have hd0 : (0:ℚ) < (d:ℚ) := by exact_mod_cast hd
  have hlt : f * (d:ℚ) < (d:ℚ) := by nlinarith
  have hge : (0:ℚ) ≤ f * (d:ℚ) := by positivity
  rw [scanIndex, Nat.floor_lt hge]
  exact hlt

theorem lum_black : lum ([0, 0, 0] : Pixel) = 0 := by
  have e0 : ([0,0,0] : Pixel).getD 0 0 = 0 := by rfl
  have e1 : ([0,0,0] : Pixel).getD 1 0 = 0 := by rfl
  have e2 : ([0,0,0] : Pixel).getD 2 0 = 0 := by rfl
  rw [lum, e0, e1, e2]
  norm_num

theorem brightness_allBlack (h w : ℕ) :
    brightness (allBlack h w) = List.replicate h (List.replicate w (0:ℚ)) := by
  rw [allBlack, brightness, List.map_replicate, List.map_replicate, lum_black]

theorem insertSorted_zero_replicate (m : ℕ) :
    insertSorted 0 (List.replicate m (0:ℚ)) = List.replicate (m + 1) 0 := by
  cases m with
  | zero => rfl
  | succ k =>
    rw [List.replicate_succ]
    show (if (0:ℚ) ≤ 0 then (0:ℚ) :: 0 :: List.replicate k 0
        else 0 :: insertSorted 0 (List.replicate k 0)) = _
    rw [if_pos (le_refl (0:ℚ)), ← List.replicate_succ, ← List.replicate_succ]

theorem sortAsc_replicate_zero (n : ℕ) :
    sortAsc (List.replicate n (0:ℚ)) = List.replicate n 0 := by
  induction n with
  | zero => rfl
  | succ m ih =>
    rw [List.replicate_succ]
    show insertSorted 0 (sortAsc (List.replicate m 0)) = _
    rw [ih, insertSorted_zero_replicate, List.replicate_succ]

theorem percentile_replicate_zero (n : ℕ) (q : ℚ) :
    percentile (List.replicate n (0:ℚ)) q = 0 := by
  have hg : ∀ i : ℕ, (List.replicate n (0:ℚ)).getD i 0 = 0 := by
    intro i
    rcases lt_or_le i n with h | h
    · rw [List.getD_eq_getElem _ _ (by simpa using h)]
      simp
    · exact List.getD_eq_default _ _ (by simpa using h)
  simp only [percentile, sortAsc_replicate_zero, hg]
  ring

theorem scanline_replicate_zero (n : ℕ) :
    scanline (List.replicate n (0:ℚ)) = zeroScan := by
  have h20 := percentile_replicate_zero n 20
  have h90 := percentile_replicate_zero n 90
  have hdiv : floor_divisor (List.replicate n (0:ℚ)) = 0.001 := by
    rw [floor_divisor, h20]
    norm_num
  simp only [scanline, hdiv, h90, zeroScan]
  congr 1 <;> norm_num [count_peaks_replicate]

theorem extractRow_replicate (h w y : ℕ) (hy : y < h) :
    extractRow (List.replicate h (List.replicate w (0:ℚ))) y
      = List.replicate w 0 := by
  rw [extractRow, List.getD_eq_getElem _ _ (by simpa using hy)]
  simp

theorem extractCol_replicate (h w : ℕ) (x : ℕ) :
    extractCol (List.replicate h (List.replicate w (0:ℚ))) x
      = List.replicate h 0 := by
  rw [extractCol, List.map_replicate]
  have : (List.replicate w (0:ℚ)).getD x 0 = 0 := by
    rcases lt_or_le x w with hx | hx
    · rw [List.getD_eq_getElem _ _ (by simpa using hx)]
      simp
    · exact List.getD_eq_default _ _ (by simpa using hx)
  rw [this]

theorem grid_replicate_zero (h w : ℕ) (hh : 1 ≤ h) :
    analyze_grid_lines (List.replicate h (List.replicate w (0:ℚ)))
      = List.replicate 8 zeroScan := by
  have hrow : ∀ f : ℚ, 0 ≤ f → f < 1 →
      extractRow (List.replicate h (List.replicate w (0:ℚ))) (scanIndex f h)
        = List.replicate w 0 :=
    fun f h0 h1 => extractRow_replicate h w _ (scanIndex_lt_dim f h hh h0 h1)
  simp only [analyze_grid_lines, List.length_replicate, hFracs, vFracs,
    List.map_cons, List.map_nil]
  rw [hrow 0.40 (by norm_num) (by norm_num), hrow 0.45 (by norm_num) (by norm_num),
    hrow 0.50 (by norm_num) (by norm_num), hrow 0.55 (by norm_num) (by norm_num),
    hrow 0.60 (by norm_num) (by norm_num), extractCol_replicate, extractCol_replicate,
    extractCol_replicate]
  simp only [scanline_replicate_zero]
  rfl

theorem abd_replicate_zero (h w : ℕ) (hne : h * w ≠ 0) :
    analyze_brightness_distribution (List.replicate h (List.replicate w (0:ℚ)))
      = { black := 100, vdark := 0, dark := 0, mid := 0, bright := 0, hot := 0 } := by
  have hq : ((h * w : ℕ) : ℚ) ≠ 0 := by exact_mod_cast hne
  have hb : bandBlack 0 = true := by
    rw [bandBlack]
    exact decide_eq_true (by norm_num)
  have hv : bandVdark 0 = false := by
    rw [bandVdark, decide_eq_false (by norm_num : ¬ ((0.02:ℚ) ≤ 0))]
    simp
  have hd : bandDark 0 = false := by
    rw [bandDark, decide_eq_false (by norm_num : ¬ ((0.06:ℚ) ≤ 0))]
    simp
  have hm : bandMid 0 = false := by
    rw [bandMid, decide_eq_false (by norm_num : ¬ ((0.15:ℚ) ≤ 0))]
    simp
  have hbr : bandBright 0 = false := by
    rw [bandBright, decide_eq_false (by norm_num : ¬ ((0.40:ℚ) ≤ 0))]
    simp
  have hht : bandHot 0 = false := by
    rw [bandHot]
    exact decide_eq_false (by norm_num)
  simp only [analyze_brightness_distribution, flatten_replicate_replicate,
    List.length_replicate, countP_replicate, hb, hv, hd, hm, hbr, hht,
    eq_self_iff_true, if_true, Bool.false_eq_true, if_false, Nat.cast_zero,
    zero_div, zero_mul]
  congr 1
  rw [div_self hq, one_mul]

theorem colors_allBlack (h w : ℕ) :
    analyze_color_channels (allBlack h w)
      = { cyan := 0, warm := 0, purple := 0, green := 0, white := 0 } := by
  have hflat : (allBlack h w).flatten = List.replicate (h * w) ([0,0,0] : Pixel) := by
    rw [allBlack]
    exact flatten_replicate_replicate h w _
  have e0 : ([0,0,0] : Pixel).getD 0 0 = 0 := by rfl
  have e1 : ([0,0,0] : Pixel).getD 1 0 = 0 := by rfl
  have e2 : ([0,0,0] : Pixel).getD 2 0 = 0 := by rfl
  have hcy : is_cyan ([0,0,0] : Pixel) = false := by
    rw [is_cyan, e1, decide_eq_false (by norm_num : ¬ ((0.1:ℚ) < 0))]
    simp
  have hwm : is_warm ([0,0,0] : Pixel) = false := by
    rw [is_warm, e0, decide_eq_false (by norm_num : ¬ ((0.1:ℚ) < 0))]
    simp
  have hpu : is_purple ([0,0,0] : Pixel) = false := by
    rw [is_purple, e0, decide_eq_false (by norm_num : ¬ ((0.1:ℚ) < 0))]
    simp
  have hgr : is_green ([0,0,0] : Pixel) = false := by
    rw [is_green, e1, decide_eq_false (by norm_num : ¬ ((0.1:ℚ) < 0))]
    simp
  have hwh : is_white ([0,0,0] : Pixel) = false := by
    rw [is_white, e0, decide_eq_false (by norm_num : ¬ ((0.5:ℚ) < 0))]
    simp
  simp only [analyze_color_channels, hflat, List.length_replicate, countP_replicate,
    hcy, hwm, hpu, hgr, hwh, Bool.false_eq_true, if_false, Nat.cast_zero,
    zero_div, zero_mul]

theorem rows_gap (h : ℕ) (hh : 3 ≤ h) : scanIndex 0.6 h < scanIndex 0.8 h := by
  rcases Nat.lt_or_ge h 5 with h5 | h5
  · interval_cases h
    · have e1 : scanIndex 0.6 3 = 1 := by
        rw [scanIndex, Nat.floor_eq_iff (by norm_num)]
        norm_num
      have e2 : scanIndex 0.8 3 = 2 := by
        rw [scanIndex, Nat.floor_eq_iff (by norm_num)]
        norm_num
      omega
    · have e1 : scanIndex 0.6 4 = 2 := by
        rw [scanIndex, Nat.floor_eq_iff (by norm_num)]
        norm_num
      have e2 : scanIndex 0.8 4 = 3 := by
        rw [scanIndex, Nat.floor_eq_iff (by norm_num)]
        norm_num
      omega
  · have hq : (5:ℚ) ≤ (h:ℚ) := by exact_mod_cast h5
    have h1 : ((scanIndex 0.6 h : ℕ) : ℚ) ≤ 0.6 * (h:ℚ) :=
      Nat.floor_le (by positivity)
    have hstep : scanIndex 0.6 h + 1 ≤ scanIndex 0.8 h := by
      have hc : ((scanIndex 0.6 h + 1 : ℕ) : ℚ) ≤ 0.8 * (h:ℚ) := by
        push_cast
        linarith
      exact Nat.le_floor hc
    omega

theorem cols_gap (w : ℕ) (hw : 2 ≤ w) : scanIndex 0.2 w < scanIndex 0.8 w := by
  have hq : (2:ℚ) ≤ (w:ℚ) := by exact_mod_cast hw
  have h1 : ((scanIndex 0.2 w : ℕ) : ℚ) ≤ 0.2 * (w:ℚ) :=
    Nat.floor_le (by positivity)
  have hstep : scanIndex 0.2 w + 1 ≤ scanIndex 0.8 w := by
    have hc : ((scanIndex 0.2 w + 1 : ℕ) : ℚ) ≤ 0.8 * (w:ℚ) := by
      push_cast
      linarith
    exact Nat.le_floor hc
  omega

theorem scanIndex_eval (f : ℚ) (d n : ℕ) (h0 : 0 ≤ f * ((d:ℕ):ℚ))
    (hl : ((n:ℕ):ℚ) ≤ f * ((d:ℕ):ℚ)) (hu : f * ((d:ℕ):ℚ) < ((n:ℕ):ℚ) + 1) :
    scanIndex f d = n := by
  rw [scanIndex, Nat.floor_eq_iff h0]
  exact ⟨hl, hu⟩

theorem floor_frac_gap (a b : ℚ) (d : ℕ) (ha : 0 ≤ a)
    (hd : (1:ℚ) ≤ (b - a) * (d:ℚ)) : scanIndex a d < scanIndex b d := by
  have h1 : ((scanIndex a d : ℕ) : ℚ) ≤ a * (d:ℚ) := Nat.floor_le (by positivity)
  have hd2 : (1:ℚ) ≤ b * (d:ℚ) - a * (d:ℚ) := by
    have he : (b - a) * (d:ℚ) = b * (d:ℚ) - a * (d:ℚ) := by ring
    rw [he] at hd
    exact hd
  have hstep : scanIndex a d + 1 ≤ scanIndex b d := by
    have hc : ((scanIndex a d + 1 : ℕ) : ℚ) ≤ b * (d:ℚ) := by
      push_cast
      linarith
    exact Nat.le_floor hc
  omega

theorem gap_3_7 (d : ℕ) (hd : 2 ≤ d) : scanIndex 0.3 d < scanIndex 0.7 d := by
  rcases Nat.lt_or_ge d 3 with h3 | h3
  · interval_cases d
    have e1 : scanIndex 0.3 2 = 0 :=
      scanIndex_eval 0.3 2 0 (by norm_num) (by norm_num) (by norm_num)
    have e2 : scanIndex 0.7 2 = 1 :=
      scanIndex_eval 0.7 2 1 (by norm_num) (by norm_num) (by norm_num)
    omega
  · apply floor_frac_gap _ _ _ (by norm_num)
    have hq : (3:ℚ) ≤ (d:ℚ) := by exact_mod_cast h3
    nlinarith

theorem gap_6_9 (d : ℕ) (hd : 3 ≤ d) : scanIndex 0.6 d < scanIndex 0.9 d := by
  rcases Nat.lt_or_ge d 4 with h4 | h4
  · interval_cases d
    have e1 : scanIndex 0.6 3 = 1 :=
      scanIndex_eval 0.6 3 1 (by norm_num) (by norm_num) (by norm_num)
    have e2 : scanIndex 0.9 3 = 2 :=
      scanIndex_eval 0.9 3 2 (by norm_num) (by norm_num) (by norm_num)
    omega
  · apply floor_frac_gap _ _ _ (by norm_num)
    have hq : (4:ℚ) ≤ (d:ℚ) := by exact_mod_cast h4
    nlinarith

theorem gap_1_3 (d : ℕ) (hd : 4 ≤ d) : scanIndex 0.1 d < scanIndex 0.3 d := by
  rcases Nat.lt_or_ge d 5 with h5 | h5
  · interval_cases d
    have e1 : scanIndex 0.1 4 = 0 :=
      scanIndex_eval 0.1 4 0 (by norm_num) (by norm_num) (by norm_num)
    have e2 : scanIndex 0.3 4 = 1 :=
      scanIndex_eval 0.3 4 1 (by norm_num) (by norm_num) (by norm_num)
    omega
  · apply floor_frac_gap _ _ _ (by norm_num)
    have hq : (5:ℚ) ≤ (d:ℚ) := by exact_mod_cast h5
    nlinarith

theorem listMean_replicate_zero (n : ℕ) :
    listMean (List.replicate n (0:ℚ)) = 0 := by
  simp [listMean, List.sum_replicate]

theorem replicate_eq_nil (k : ℕ) (a : ℚ) (h : List.replicate k a = []) :
    k = 0 := by
  have hlen := congrArg List.length h
  rwa [List.length_replicate, List.length_nil] at hlen

theorem regions_allBlack (h w : ℕ) (hh : 4 ≤ h) (hw : 2 ≤ w) :
    analyze_regions (List.replicate h (List.replicate w (0:ℚ)))
      = some { center_mean := 0, center_p95 := 0, bottom_mean := 0, bottom_p95 := 0,
               top_mean := 0, top_p95 := 0, left_mean := 0, right_mean := 0 } := by
  have g37h := gap_3_7 h (by omega)
  have g69h := gap_6_9 h (by omega)
  have g13h := gap_1_3 h hh
  have g37w := gap_3_7 w hw
  have g28w := cols_gap w hw
  have l3h := scanIndex_lt_dim 0.3 h (by omega) (by norm_num) (by norm_num)
  have l6h := scanIndex_lt_dim 0.6 h (by omega) (by norm_num) (by norm_num)
  have l1h := scanIndex_lt_dim 0.1 h (by omega) (by norm_num) (by norm_num)
  have l3w := scanIndex_lt_dim 0.3 w (by omega) (by norm_num) (by norm_num)
  have l2w := scanIndex_lt_dim 0.2 w (by omega) (by norm_num) (by norm_num)
  obtain ⟨m, rfl⟩ : ∃ m, h = m + 1 := ⟨h - 1, by omega⟩
  simp only [analyze_regions, List.length_replicate, headD_replicate_succ,
    subSlice_replicate]
  split_ifs with hcond
  · exfalso
    simp only [Bool.or_eq_true, List.isEmpty_iff_length_eq_zero,
      List.length_replicate] at hcond
    rcases hcond with (hc | hc) | hc <;>
      rcases Nat.mul_eq_zero.mp hc with h0 | h0 <;>
      omega
  · simp only [percentile_replicate_zero, listMean_replicate_zero, zero_mul]

theorem reflection_allBlack (h w : ℕ) (hh : 3 ≤ h) (hw : 2 ≤ w) :
    analyze_reflection_quality (List.replicate h (List.replicate w (0:ℚ)))
      = { floor_var := 0, floor_max_brightness := 0, floor_has_variation := .NO } := by
  have hreg := floorRegion_replicate h w (by omega) (0:ℚ)
  have hvar : popVar (floorRegion (List.replicate h (List.replicate w (0:ℚ)))) = 0 := by
    apply popVar_const _ 0
    intro x hx
    rw [hreg] at hx
    exact List.eq_of_mem_replicate hx
  have hk1 : (min (scanIndex 0.8 h - scanIndex 0.6 h) (h - scanIndex 0.6 h)
      * min (scanIndex 0.8 w - scanIndex 0.2 w) (w - scanIndex 0.2 w)) ≠ 0 := by
    have g1 := rows_gap h hh
    have g2 := cols_gap w hw
    have l1 := scanIndex_lt_dim 0.6 h (by omega) (by norm_num) (by norm_num)
    have l2 := scanIndex_lt_dim 0.2 w (by omega) (by norm_num) (by norm_num)
    have m1 : min (scanIndex 0.8 h - scanIndex 0.6 h) (h - scanIndex 0.6 h) ≠ 0 := by
      omega
    have m2 : min (scanIndex 0.8 w - scanIndex 0.2 w) (w - scanIndex 0.2 w) ≠ 0 := by
      omega
    exact Nat.mul_ne_zero m1 m2
  have hne : floorRegion (List.replicate h (List.replicate w (0:ℚ))) ≠ [] := by
    rw [hreg]
    intro hcon
    apply hk1
    have hlen := congrArg List.length hcon
    rwa [List.length_replicate, List.length_nil] at hlen
  have hmax : listMax (floorRegion (List.replicate h (List.replicate w (0:ℚ)))) = 0 := by
    have hmem := listMax_mem _ hne
    rw [hreg] at hmem ⊢
    exact List.eq_of_mem_replicate hmem
  simp only [analyze_reflection_quality, hvar, hmax]
  norm_num

theorem avg_contrast_replicate_zeroScan :
    avg_contrast (List.replicate 8 zeroScan) = 0 := by
  simp [avg_contrast, List.map_replicate, List.sum_replicate, zeroScan]

theorem avg_peaks_replicate_zeroScan :
    avg_peaks (List.replicate 8 zeroScan) = 0 := by
  simp [avg_peaks, List.map_replicate, List.sum_replicate, zeroScan]

theorem verdict_zero : grid_verdict 0 0 = Verdict.INVISIBLE := by
  rw [grid_verdict, if_neg (by norm_num), if_neg (by norm_num), if_neg (by norm_num)]

theorem assessment_allBlack :
    assessment 100 0 0 0 0 VariationClass.NO
      = [msgTooDark, msgNoGridFloor, msgLowContrast, msgNoCyan, msgNoSSR] := by
  have hiss : issues 100 0 0 0 0 VariationClass.NO
      = [msgTooDark, msgNoGridFloor, msgLowContrast, msgNoCyan, msgNoSSR] := by
    rw [issues,
      if_pos (by norm_num : (70:ℚ) < 100),
      if_pos (by norm_num : (50:ℚ) < 100 ∧ (0:ℚ) < 5),
      if_pos (by norm_num : (0:ℚ) < 2.0),
      if_pos (by norm_num : (0:ℚ) < 1.0),
      if_pos rfl,
      if_neg (by norm_num : ¬ (15:ℚ) < 0)]
    rfl
  rw [assessment]
  simp [hiss]

theorem brightnessChecked_allBlack (h w : ℕ) :
    brightnessChecked (allBlack h w) = some (brightness (allBlack h w)) := by
  have hcond : (allBlack h w).all
      (fun row => row.all fun p => decide (3 ≤ p.length)) = true := by
    rw [List.all_eq_true]
    intro row hrow
    rw [allBlack] at hrow
    rw [List.eq_of_mem_replicate hrow, List.all_eq_true]
    intro p hp
    rw [List.eq_of_mem_replicate hp]
    rfl
  rw [brightnessChecked, if_pos hcond]

/-- C2 (amended): the all-black scenario, for the buffer sizes at which
the program runs to completion — h at least 4 and w at least 2, since
otherwise the region sampler raises on an empty slice (see the second
half of the counterexample) and no report at all is produced. For those
sizes the pipeline reports: black band 100 percent, all other bands 0;
all five color categories 0; every scan line with contrast 0 (the line
level 0 divided by the clamped floor 0.001, not 1.0 as the spec states)
and 0 peaks, so the verdict is INVISIBLE; floor variance 0 with
classification NO; and the assessment is exactly too-dark,
no-grid-floor, low-contrast, no-cyan and no-SSR, with bloom-overload
absent. The claim says nothing about the region means, which is why the
conclusion pins every report component except `regions` (the left-edge
region mean is nan in the program whenever w < 7). -/
theorem C2_all_black_scenario (h w : ℕ) (hh : 4 ≤ h) (hw : 2 ≤ w) :
    ∃ rpt : Report,
      run_main (allBlack h w) = some rpt
      ∧ rpt.dist = { black := 100, vdark := 0, dark := 0, mid := 0,
                     bright := 0, hot := 0 }
      ∧ rpt.grid = List.replicate 8 zeroScan
      ∧ rpt.colors = { cyan := 0, warm := 0, purple := 0, green := 0, white := 0 }
      ∧ rpt.refl = { floor_var := 0, floor_max_brightness := 0,
                     floor_has_variation := .NO }
      ∧ rpt.verdict = .INVISIBLE
      ∧ rpt.assessment = [msgTooDark, msgNoGridFloor, msgLowContrast,
                          msgNoCyan, msgNoSSR]
      ∧ msgBloom ∉ rpt.assessment := by
  refine ⟨{ dist := { black := 100, vdark := 0, dark := 0, mid := 0,
                      bright := 0, hot := 0 }
            grid := List.replicate 8 zeroScan
            colors := { cyan := 0, warm := 0, purple := 0, green := 0, white := 0 }
            regions := { center_mean := 0, center_p95 := 0, bottom_mean := 0,
                         bottom_p95 := 0, top_mean := 0, top_p95 := 0,
                         left_mean := 0, right_mean := 0 }
            refl := { floor_var := 0, floor_max_brightness := 0,
                      floor_has_variation := .NO }
            verdict := .INVISIBLE
            assessment := [msgTooDark, msgNoGridFloor, msgLowContrast,
                           msgNoCyan, msgNoSSR] },
    ?_, rfl, rfl, rfl, rfl, rfl, rfl, ?_⟩
  · have hlen0 : ¬ ((List.replicate h (List.replicate w (0:ℚ))).flatten.length = 0) := by
      rw [flatten_replicate_replicate, List.length_replicate]
      exact Nat.mul_ne_zero (by omega) (by omega)
    simp only [run_main, brightnessChecked_allBlack, brightness_allBlack]
    rw [if_neg hlen0]
    simp only [regions_allBlack h w hh hw]
    rw [abd_replicate_zero h w (Nat.mul_ne_zero (by omega) (by omega)),
      grid_replicate_zero h w (by omega), colors_allBlack,
      reflection_allBlack h w (by omega) hw, avg_contrast_replicate_zeroScan,
      avg_peaks_replicate_zeroScan, verdict_zero]
    rw [assessment_allBlack]
  · simp +decide [msgTooDark, msgNoGridFloor, msgLowContrast, msgNoCyan,
      msgNoSSR, msgBloom]

/-- Witness for C2 at the smallest covered size, 4 x 2. -/
theorem C2_all_black_scenario_witness :
    (4 ≤ 4 ∧ 2 ≤ 2)
    ∧ ∃ rpt : Report,
        run_main (allBlack 4 2) = some rpt
        ∧ rpt.dist = { black := 100, vdark := 0, dark := 0, mid := 0,
                       bright := 0, hot := 0 }
        ∧ rpt.grid = List.replicate 8 zeroScan
        ∧ rpt.colors = { cyan := 0, warm := 0, purple := 0, green := 0, white := 0 }
        ∧ rpt.refl = { floor_var := 0, floor_max_brightness := 0,
                       floor_has_variation := .NO }
        ∧ rpt.verdict = .INVISIBLE
        ∧ rpt.assessment = [msgTooDark, msgNoGridFloor, msgLowContrast,
                            msgNoCyan, msgNoSSR]
        ∧ msgBloom ∉ rpt.assessment :=
  ⟨⟨le_refl 4, le_refl 2⟩, C2_all_black_scenario 4 2 (le_refl 4) (le_refl 2)⟩

/-- Counterexample to C2 as stated, in both ways the code departs from
it: on the all-black 5 x 5 buffer the scan lines do not all have
contrast 1.0 (they all have contrast 0), and on the all-black 3 x 2
buffer the program produces no report at all — the top region slice
`brt[int(0.1 * 3):int(0.3 * 3)]` is `brt[0:0]`, empty, and
`np.percentile` of it raises, so the claim cannot hold for every
non-empty all-black buffer. -/
theorem C2_contrast_counterexample :
    (¬ ∀ r ∈ analyze_grid_lines (brightness (allBlack 5 5)), r.contrast = 1)
    ∧ run_main (allBlack 3 2) = none := by
  constructor
  · intro hall
    have hgrid : analyze_grid_lines (brightness (allBlack 5 5))
        = List.replicate 8 zeroScan := by
      rw [brightness_allBlack]
      exact grid_replicate_zero 5 5 (by norm_num)
    have hz : zeroScan ∈ analyze_grid_lines (brightness (allBlack 5 5)) := by
      rw [hgrid]
      exact List.mem_replicate.mpr ⟨by norm_num, rfl⟩
    have h0 := hall zeroScan hz
    have hc : zeroScan.contrast = 0 := by rfl
    rw [hc] at h0
    exact absurd h0 (by norm_num)
  · have s1 : scanIndex 0.1 3 = 0 :=
      scanIndex_eval 0.1 3 0 (by norm_num) (by norm_num) (by norm_num)
    have s3 : scanIndex 0.3 3 = 0 :=
      scanIndex_eval 0.3 3 0 (by norm_num) (by norm_num) (by norm_num)
    have hhead : (List.replicate 3 (List.replicate 2 (0:ℚ))).headD []
        = List.replicate 2 (0:ℚ) := rfl
    have hregnone : analyze_regions (List.replicate 3 (List.replicate 2 (0:ℚ)))
        = none := by
      simp only [analyze_regions, List.length_replicate, hhead, s1, s3]
      split_ifs with hcond
      · rfl
      · exfalso
        apply hcond
        have htop : (subSlice (List.replicate 3 (List.replicate 2 (0:ℚ))) 0 0
            (scanIndex 0.2 2) (scanIndex 0.8 2)).isEmpty = true := rfl
        rw [htop]
        simp
    have hflatne : ¬ ((List.replicate 3 (List.replicate 2 (0:ℚ))).flatten.length = 0) := by
      rw [flatten_replicate_replicate, List.length_replicate]
      norm_num
    simp only [run_main, brightnessChecked_allBlack, brightness_allBlack]
    rw [if_neg hflatne, hregnone]

theorem brightness_flatten_length (img : PixelBuffer) :
    (brightness img).flatten.length = img.flatten.length := by
  have hfg : (List.length ∘ fun row : List Pixel => List.map lum row)
      = List.length := by
    funext row
    simp
  rw [brightness, List.length_flatten, List.length_flatten, List.map_map, hfg]

/-- C8 (amended): on a buffer with zero pixels, or one with a pixel of
fewer than three channels, the analysis of `main` fails with an
unhandled exception (modelled as `none`) and no report is produced; the
code performs no validation and has no InvalidInput error value. -/
theorem C8_malformed_buffer (img : PixelBuffer)
    (hbad : img.flatten = [] ∨ ∃ row ∈ img, ∃ p ∈ row, p.length < 3) :
    run_main img = none := by
  rcases hbad with hempty | ⟨row, hrow, p, hp, hplen⟩
  · cases hchk : brightnessChecked img with
    | none => simp [run_main, hchk]
    | some brt =>
      have hbrt : brt = brightness img := by
        rw [brightnessChecked] at hchk
        split_ifs at hchk with hc
        exact (Option.some.injEq _ _).mp hchk |>.symm
      have hzero : brt.flatten.length = 0 := by
        rw [hbrt, brightness_flatten_length, hempty]
        rfl
      simp [run_main, hchk, hzero]
  · have hc : ¬ (img.all (fun row => row.all fun p => decide (3 ≤ p.length)) = true) := by
      rw [List.all_eq_true]
      intro hall
      have h1 := hall row hrow
      rw [List.all_eq_true] at h1
      have h2 := h1 p hp
      rw [decide_eq_true_eq] at h2
      omega
    have hchk : brightnessChecked img = none := by
      rw [brightnessChecked, if_neg hc]
    simp [run_main, hchk]

/-- Witness for C8 at the empty buffer. -/
theorem C8_malformed_buffer_witness :
    (([] : PixelBuffer).flatten = []
      ∨ ∃ row ∈ ([] : PixelBuffer), ∃ p ∈ row, p.length < 3)
    ∧ run_main [] = none :=
  ⟨Or.inl rfl, C8_malformed_buffer [] (Or.inl rfl)⟩

/-- Counterexample to C8 as stated: a 5 x 5 buffer whose pixels all have
four channels is malformed with respect to the h x w x 3 contract, yet
the core (every region slice being non-empty at this size) produces a
report instead of failing with an InvalidInput error. -/
theorem C8_wrong_channels_counterexample :
    (∀ row ∈ fourChan, ∀ p ∈ row, p.length ≠ 3)
    ∧ (run_main fourChan).isSome = true := by
  constructor
  · decide
  · have hlum : lum ([0.5, 0.5, 0.5, 0.5] : Pixel) = 0.5 := by
      have e0 : ([0.5, 0.5, 0.5, 0.5] : Pixel).getD 0 0 = 0.5 := by rfl
      have e1 : ([0.5, 0.5, 0.5, 0.5] : Pixel).getD 1 0 = 0.5 := by rfl
      have e2 : ([0.5, 0.5, 0.5, 0.5] : Pixel).getD 2 0 = 0.5 := by rfl
      rw [lum, e0, e1, e2]
      norm_num
    have hbr : brightness fourChan = List.replicate 5 (List.replicate 5 (0.5:ℚ)) := by
      rw [fourChan, brightness, List.map_replicate, List.map_replicate, hlum]
    have hchk : brightnessChecked fourChan = some (brightness fourChan) := by
      rw [brightnessChecked, if_pos (by decide)]
    have hflat : ¬ ((List.replicate 5 (List.replicate 5 (0.5:ℚ))).flatten.length = 0) := by
      rw [flatten_replicate_replicate, List.length_replicate]
      norm_num
    obtain ⟨r, hr⟩ : ∃ r, analyze_regions (List.replicate 5 (List.replicate 5 (0.5:ℚ)))
        = some r := by
      have s1 : scanIndex 0.1 5 = 0 :=
        scanIndex_eval 0.1 5 0 (by norm_num) (by norm_num) (by norm_num)
      have s15 : scanIndex 0.15 5 = 0 :=
        scanIndex_eval 0.15 5 0 (by norm_num) (by norm_num) (by norm_num)
      have s2 : scanIndex 0.2 5 = 1 :=
        scanIndex_eval 0.2 5 1 (by norm_num) (by norm_num) (by norm_num)
      have s3 : scanIndex 0.3 5 = 1 :=
        scanIndex_eval 0.3 5 1 (by norm_num) (by norm_num) (by norm_num)
      have s6 : scanIndex 0.6 5 = 3 :=
        scanIndex_eval 0.6 5 3 (by norm_num) (by norm_num) (by norm_num)
      have s7 : scanIndex 0.7 5 = 3 :=
        scanIndex_eval 0.7 5 3 (by norm_num) (by norm_num) (by norm_num)
      have s8 : scanIndex 0.8 5 = 4 :=
        scanIndex_eval 0.8 5 4 (by norm_num) (by norm_num) (by norm_num)
      have s85 : scanIndex 0.85 5 = 4 :=
        scanIndex_eval 0.85 5 4 (by norm_num) (by norm_num) (by norm_num)
      have s9 : scanIndex 0.9 5 = 4 :=
        scanIndex_eval 0.9 5 4 (by norm_num) (by norm_num) (by norm_num)
      have hhead : (List.replicate 5 (List.replicate 5 (0.5:ℚ))).headD []
          = List.replicate 5 (0.5:ℚ) := rfl
      simp only [analyze_regions, List.length_replicate, hhead, s1, s15, s2, s3,
        s6, s7, s8, s85, s9]
      rw [if_neg (by decide)]
      exact ⟨_, rfl⟩
    simp only [run_main, hchk, hbr]
    rw [if_neg hflat, hr]
    rfl

end TronDashboard
